import Mathlib

/-!
Verification of the document ingestion and normalization pipeline of a
browser-based office-document viewer (two source files: the embedded
`FileViewer` component and the standalone `App` component).

The pipeline logic is embedded shallowly: the DOCX underscore
post-processing (a pair of JavaScript regular-expression passes) is
translated into recursive scanners over `List Char`; the external
converters (mammoth, SheetJS, `atob`, `URL.createObjectURL`) are
parameters or ledger counters; the React state hooks become explicit
state records with pure transition functions.
-/

/-! ## DOCX normalizer: underscore post-processing (renderDocx)

Source: `processedHtml.replace(/<p>(.*?)<\/p>/g, (content) => {
  const processedContent = content.replace(/_{3,}/g, (underscores) =>
    `<span class="underscore-field">${'_'.repeat(underscores.length)}</span>`);
  return `<p>${processedContent}</p>`; })`
guarded by `const hasUnderscores = /_+/.test(textResult.value)`.

Note the replacer's first parameter is the *full match* (tags included),
and the result is wrapped in a fresh pair of `<p>` tags. -/

def pOpen : List Char := ['<', 'p', '>']

def pClose : List Char := ['<', '/', 'p', '>']

def spanOpen : List Char := "<span class=\"underscore-field\">".data

def spanClose : List Char := "</span>".data

/-- Replacement for one maximal underscore run of length `n`: runs of
length at least 3 become a marker span holding `n` underscores, shorter
runs are emitted verbatim (`/_{3,}/g` semantics). -/
def wrapRun (n : Nat) : List Char :=
  if 3 ≤ n then spanOpen ++ List.replicate n '_' ++ spanClose
  else List.replicate n '_'

/-- Scanner for `content.replace(/_{3,}/g, ...)`: `k` counts the pending
run of underscores already consumed. -/
def wrapUAux : Nat → List Char → List Char
  | k, [] => wrapRun k
  | k, c :: t =>
    if c = '_' then wrapUAux (k + 1) t
    else wrapRun k ++ c :: wrapUAux 0 t

/-- Embedding of `s.replace(/_{3,}/g, run => span(run))` on a character
list. -/
def wrapU (l : List Char) : List Char := wrapUAux 0 l

/-- Characters the JavaScript regex `.` does not match. -/
def isLineTerm (c : Char) : Bool :=
  c = '\n' || c = '\r' || c = '\u2028' || c = '\u2029'

/-- Lazy search for the closing `</p>` after a matched `<p>`: returns the
content before the first `</p>` and the remainder after it, failing when
a line terminator intervenes (the regex `.` cannot cross it) or no
closing tag exists. -/
def findClose : List Char → Option (List Char × List Char)
  | [] => none
  | c :: t =>
    if (c :: t).take 4 = pClose then some ([], (c :: t).drop 4)
    else if isLineTerm c then none
    else
      match findClose t with
      | some (inner, rest) => some (c :: inner, rest)
      | none => none

theorem findClose_len :
    ∀ (l inner rest : List Char), findClose l = some (inner, rest) →
      rest.length + 4 ≤ l.length := by
  intro l
  induction l with
  | nil => intro inner rest h; simp [findClose] at h
  | cons c t ih =>
    intro inner rest h
    unfold findClose at h
    split at h
    · rename_i h4
      injection h with h'
      injection h' with h1 h2
      subst h2
      have hlen : 3 ≤ t.length := by
        have := congrArg List.length h4
        simp [pClose] at this
        omega
      simp
      omega
    · split at h
      · exact absurd h (by simp)
      · split at h
        · rename_i inner' rest' hrec
          injection h with h'
          injection h' with h1 h2
          subst h2
          have := ih _ _ hrec
          simp
          omega
        · exact absurd h (by simp)

/-- Embedding of `htmlFragment.replace(/<p>(.*?)<\/p>/g, content =>
"<p>" ++ wrapU content ++ "</p>")`: scan left to right; at each position
where the literal `<p>` matches and a closing `</p>` is lazily
reachable, replace the whole match and continue after it; otherwise copy
one character and continue. -/
def processParas : List Char → List Char
  | [] => []
  | c :: t =>
    if (c :: t).take 3 = pOpen then
      match h : findClose ((c :: t).drop 3) with
      | some (inner, rest) =>
        pOpen ++ wrapU (pOpen ++ inner ++ pClose) ++ pClose ++ processParas rest
      | none => c :: processParas t
    else c :: processParas t
termination_by l => l.length
decreasing_by
  · have := findClose_len _ _ _ h
    simp at this ⊢
    omega
  · simp
  · simp

/-- Embedding of `/_+/.test plainText`: the raw text contains an
underscore. -/
def hasUnderscores (s : String) : Bool := s.data.contains '_'

/-- The DOCX normalizer's post-processing step (renderDocx): if the
extracted plain text contains any underscore, run the paragraph-level
underscore pass over the converter's HTML, otherwise return it
untouched. -/
def docxProcessedHtml (plain html : String) : String :=
  if hasUnderscores plain then ⟨processParas html.data⟩ else html

/-! ## Spreadsheet normalizer (renderExcel / handleFileUpload)

Source: `workbook.SheetNames.map(sheetName => {
  const worksheet = workbook.Sheets[sheetName];
  const htmlTable = XLSX.utils.sheet_to_html(worksheet);
  return { name: sheetName, html: htmlTable }; })`.

The workbook is the external parser's output: an ordered name list plus
a name-keyed map of worksheets; `sheet_to_html` is an external
parameter. -/

structure Workbook (Ws : Type) where
  SheetNames : List String
  Sheets : String → Ws

def renderExcelSheets {Ws : Type} (sheetToHtml : Ws → String)
    (wb : Workbook Ws) : List (String × String) :=
  wb.SheetNames.map (fun sheetName => (sheetName, sheetToHtml (wb.Sheets sheetName)))

/-! ## Embedded viewer state (FileViewer component)

One field per React state hook: `fileData`, `content`, `excelSheets`,
`selectedSheetIndex`, `loading` (initially true), `error`. -/

structure FileData where
  type : String
  fileName : String
  sheets : Option (List (String × String))
deriving DecidableEq, Repr

structure ViewerState where
  fileData : Option FileData
  content : String
  excelSheets : List (String × String)
  selectedSheetIndex : Nat
  loading : Bool
  error : Option String
deriving DecidableEq, Repr

def initState : ViewerState :=
  { fileData := none, content := "", excelSheets := [],
    selectedSheetIndex := 0, loading := true, error := none }

structure FlutterMessage where
  type : String
  fileType : String
  fileName : String
  fileData : String
deriving DecidableEq, Repr

/-- The embedded viewer's window-message handler: only `FILE_DATA`
messages are acted on; the base64 decoder and the two converters are
external parameters returning either a result or a thrown message
(caught by the handler's try/catch, which sets `error` and clears
`loading`). -/
def handleMessage {Ws : Type}
    (decodeB64 : String → Except String (List Nat))
    (convertDocx : List Nat → Except String (String × String))
    (readWb : List Nat → Except String (Workbook Ws))
    (sheetToHtml : Ws → String)
    (msg : FlutterMessage) (s : ViewerState) : ViewerState :=
  if msg.type = "FILE_DATA" then
    let s1 := { s with loading := true, error := none }
    match decodeB64 msg.fileData with
    | .error m => { s1 with error := some m, loading := false }
    | .ok bytes =>
      if msg.fileType = "docx" then
        match convertDocx bytes with
        | .error m => { s1 with error := some m, loading := false }
        | .ok (html, plain) =>
          { s1 with fileData := some ⟨"docx", msg.fileName, none⟩,
                    content := docxProcessedHtml plain html,
                    loading := false }
      else if msg.fileType = "xlsx" then
        match readWb bytes with
        | .error m => { s1 with error := some m, loading := false }
        | .ok wb =>
          let sheets := renderExcelSheets sheetToHtml wb
          { s1 with fileData := some ⟨"xlsx", msg.fileName, some sheets⟩,
                    excelSheets := sheets, selectedSheetIndex := 0,
                    loading := false }
      else { s1 with loading := false }
  else s

/-- Effect of the sheet-tab click handler
`onClick={() => setSelectedSheetIndex(idx)}`: the raw React setter,
which updates the index unconditionally. -/
def setSelectedSheetIndexOp (s : ViewerState) (i : Nat) : ViewerState :=
  { s with selectedSheetIndex := i }

/-- Indices for which the render emits a sheet-tab button: one per sheet
(`excelSheets.map((sheet, idx) => ...)`), and only when more than one
sheet exists (`excelSheets.length > 1 && ...`). -/
def sheetTabIndices (s : ViewerState) : List Nat :=
  if 1 < s.excelSheets.length then List.range s.excelSheets.length else []

/-! ## Interleaving model for overlapping loads

The async handler body decomposes at its suspension points into atomic
state-update blocks: the synchronous head (`setLoading(true);
setError(null)`; decoding), the post-conversion block of renderDocx
(`setFileData`, `setContent`), and the final `setLoading(false)`. An
interleaving of two overlapping loads is any order-preserving merge of
their block lists. -/

inductive LoadStep where
  | begin0
  | putDocx (fd : FileData) (html : String)
  | finish
deriving DecidableEq, Repr

def applyStep (s : ViewerState) : LoadStep → ViewerState
  | .begin0 => { s with loading := true, error := none }
  | .putDocx fd h => { s with fileData := some fd, content := h }
  | .finish => { s with loading := false }

def runSteps (s : ViewerState) (l : List LoadStep) : ViewerState :=
  l.foldl applyStep s

/-- The atomic blocks of one docx load through the message handler. -/
def docxLoadSteps (name plain html : String) : List LoadStep :=
  [.begin0, .putDocx ⟨"docx", name, none⟩ (docxProcessedHtml plain html), .finish]

/-- Order-preserving merge of two step lists, driven by a boolean
schedule: `true` takes the next step of the first load, `false` of the
second. -/
def mergeBy {α : Type} : List Bool → List α → List α → List α
  | true :: bs, x :: xs, ys => x :: mergeBy bs xs ys
  | false :: bs, xs, y :: ys => y :: mergeBy bs xs ys
  | _, xs, ys => xs ++ ys

def isPut : LoadStep → Bool
  | .putDocx _ _ => true
  | _ => false

/-! ## Standalone app (App component)

One field per React state hook, plus a ledger of object-URL
creations/revocations performed through the browser API. -/

structure AppState where
  selectedFile : Option String
  fileContent : String
  fileType : String
  isLoading : Bool
  error : String
  excelData : List (String × String)
  urlsCreated : Nat
  urlsRevoked : Nat
deriving DecidableEq, Repr

def appInit : AppState :=
  { selectedFile := none, fileContent := "", fileType := "", isLoading := false,
    error := "", excelData := [], urlsCreated := 0, urlsRevoked := 0 }

/-- Embedding of JavaScript `name.split('.')`: split at every dot; the
result is always nonempty (a dotless name yields itself whole). -/
def splitOnDot : List Char → List (List Char)
  | [] => [[]]
  | c :: t =>
    match splitOnDot t with
    | [] => [[]]
    | h :: r => if c = '.' then [] :: h :: r else (c :: h) :: r

/-- Embedding of `file.name.split('.').pop()?.toLowerCase()`. -/
def fileExtension (name : String) : String :=
  ⟨((splitOnDot name.data).getLastD []).map Char.toLower⟩

def toUpperStr (s : String) : String := ⟨s.data.map Char.toUpper⟩

/-- Error text of the doc/ppt/pptx branch,
`` `${fileExtension.toUpperCase()} files require conversion. ...` ``. -/
def legacyMsg (e : String) : String :=
  toUpperStr e ++ " files require conversion. Please save as DOCX (for Word) or use Google Docs viewer."

def unsupportedMsg : String :=
  "Unsupported file type. Please upload .docx, .xlsx, .xls, or .pdf files."

/-- The standalone app's upload handler: reset transient fields, branch
on the lowercased last dot-separated component of the file name, run the
selected pipeline (converters as parameters, conversion throws caught
into `error`), and finally clear `isLoading`. The pdf branch records an
object-URL creation in the ledger; no branch ever records a
revocation. -/
def handleFileUpload {Ws : Type} (convertDocxHtml : Except String String)
    (readWb : Except String (Workbook Ws)) (sheetToHtml : Ws → String)
    (name : String) (s : AppState) : AppState :=
  let s1 := { s with error := "", isLoading := true, selectedFile := some name,
                     fileContent := "", excelData := ([] : List (String × String)) }
  let e := fileExtension name
  let s2 :=
    if e = "docx" then
      match convertDocxHtml with
      | .ok html => { s1 with fileType := "word", fileContent := html }
      | .error m => { s1 with fileType := "word", error := "Error loading file: " ++ m }
    else if e = "xlsx" ∨ e = "xls" then
      match readWb with
      | .ok wb => { s1 with fileType := "excel", excelData := renderExcelSheets sheetToHtml wb }
      | .error m => { s1 with fileType := "excel", error := "Error loading file: " ++ m }
    else if e = "pdf" then
      { s1 with fileType := "pdf",
                fileContent := "blob:" ++ toString s1.urlsCreated,
                urlsCreated := s1.urlsCreated + 1 }
    else if e = "doc" ∨ e = "ppt" ∨ e = "pptx" then
      { s1 with error := legacyMsg e }
    else
      { s1 with error := unsupportedMsg }
  { s2 with isLoading := false }

/-- The clear-file handler: resets the state fields; it performs no
object-URL revocation (the source never calls `URL.revokeObjectURL`). -/
def handleClearFile (s : AppState) : AppState :=
  { s with selectedFile := none, fileContent := "",
           excelData := ([] : List (String × String)),
           fileType := "", error := "" }

/-! ## Helper predicates and lemmas for the underscore pass -/

/-- The list ends with a character other than an underscore. -/
def endsNonU : List Char → Bool
  | [] => false
  | [c] => decide (c ≠ '_')
  | _ :: c :: t => endsNonU (c :: t)

/-- Empty, or ending with a non-underscore character. -/
def lastOk : List Char → Bool
  | [] => true
  | c :: t => endsNonU (c :: t)

/-- Empty, or starting with a non-underscore character. -/
def headOk : List Char → Bool
  | [] => true
  | c :: _ => decide (c ≠ '_')

/-- Occurrence test for a fixed pattern, scanning every start
position. -/
def hasSub (pat : List Char) : List Char → Bool
  | [] => pat.isEmpty
  | c :: t => if (c :: t).take pat.length = pat then true else hasSub pat t

theorem wrapRun_zero : wrapRun 0 = [] := by simp [wrapRun]

theorem wrapUAux_cons_u (k : Nat) (t : List Char) :
    wrapUAux k ('_' :: t) = wrapUAux (k + 1) t := by simp [wrapUAux]

theorem wrapUAux_cons (k : Nat) (c : Char) (t : List Char) (hc : c ≠ '_') :
    wrapUAux k (c :: t) = wrapRun k ++ c :: wrapUAux 0 t := by simp [wrapUAux, hc]

theorem wrapUAux_rep (n : Nat) :
    ∀ (k : Nat) (r : List Char), headOk r = true →
      wrapUAux k (List.replicate n '_' ++ r) = wrapRun (k + n) ++ wrapUAux 0 r := by
  induction n with
  | zero =>
    intro k r hr
    cases r with
    | nil => simp [wrapUAux, wrapRun_zero]
    | cons c t =>
      have hc : ¬ c = '_' := by simpa [headOk] using hr
      simp [wrapUAux, hc, wrapRun_zero]
  | succ n ih =>
    intro k r hr
    have hrep : List.replicate (n + 1) '_' ++ r = '_' :: (List.replicate n '_' ++ r) := by
      simp [List.replicate_succ]
    rw [hrep, wrapUAux_cons_u, ih (k + 1) r hr]
    congr 2
    omega

theorem wrapUAux_append (a : List Char) :
    ∀ (k : Nat) (r : List Char), endsNonU a = true →
      wrapUAux k (a ++ r) = wrapUAux k a ++ wrapUAux 0 r := by
  induction a with
  | nil => intro k r ha; simp [endsNonU] at ha
  | cons c t ih =>
    intro k r ha
    cases t with
    | nil =>
      have hc : ¬ c = '_' := by simpa [endsNonU] using ha
      simp [wrapUAux, hc, wrapRun_zero]
    | cons d t2 =>
      have ha' : endsNonU (d :: t2) = true := by simpa [endsNonU] using ha
      by_cases hc : c = '_'
      · subst hc
        rw [show ('_' :: d :: t2) ++ r = '_' :: ((d :: t2) ++ r) by simp]
        rw [wrapUAux_cons_u, wrapUAux_cons_u]
        exact ih (k + 1) r ha'
      · rw [show (c :: d :: t2) ++ r = c :: ((d :: t2) ++ r) by simp]
        rw [wrapUAux_cons k c _ hc, wrapUAux_cons k c _ hc]
        rw [ih 0 r ha']
        simp

theorem wrapUAux_close (b : List Char) :
    ∀ (k : Nat), wrapUAux k (b ++ pClose) = wrapUAux k b ++ pClose := by
  induction b with
  | nil =>
    intro k
    show wrapUAux k pClose = wrapRun k ++ pClose
    simp [pClose, wrapUAux, wrapRun_zero]
  | cons c t ih =>
    intro k
    by_cases hc : c = '_'
    · subst hc
      rw [List.cons_append, wrapUAux_cons_u, wrapUAux_cons_u]
      exact ih (k + 1)
    · rw [List.cons_append, wrapUAux_cons k c _ hc, wrapUAux_cons k c _ hc]
      rw [ih 0]
      simp

theorem headOk_append_close (b : List Char) (hb : headOk b = true) :
    headOk (b ++ pClose) = true := by
  cases b with
  | nil => simp [pClose, headOk]
  | cons c t =>
    have hc : ¬ c = '_' := by simpa [headOk] using hb
    simp [headOk, hc]

theorem wrapU_nil : wrapU [] = [] := by simp [wrapU, wrapUAux, wrapRun_zero]

/-- Action of the inner `/_{3,}/g` substitution on a whole matched
paragraph `<p>` ++ a ++ run ++ b ++ `</p>` in which the distinguished
maximal run is delimited by non-underscore characters (or the tags). -/
theorem wrapU_full (a b : List Char) (n : Nat)
    (ha : lastOk a = true) (hb : headOk b = true) :
    wrapU (pOpen ++ (a ++ List.replicate n '_' ++ b) ++ pClose)
      = pOpen ++ wrapU a ++ wrapRun n ++ wrapU b ++ pClose := by
  have hbc : headOk (b ++ pClose) = true := headOk_append_close b hb
  have hmid : ∀ k : Nat, wrapUAux k (List.replicate n '_' ++ (b ++ pClose))
      = wrapRun (k + n) ++ (wrapUAux 0 b ++ pClose) := by
    intro k
    rw [wrapUAux_rep n k _ hbc, wrapUAux_close]
  show wrapUAux 0 _ = _
  rw [show pOpen ++ (a ++ List.replicate n '_' ++ b) ++ pClose
      = '<' :: 'p' :: '>' :: (a ++ (List.replicate n '_' ++ (b ++ pClose))) by
    simp [pOpen]]
  rw [wrapUAux_cons 0 '<' _ (by decide), wrapUAux_cons 0 'p' _ (by decide),
      wrapUAux_cons 0 '>' _ (by decide), wrapRun_zero]
  cases a with
  | nil =>
    simp only [List.nil_append]
    rw [hmid 0, wrapU_nil]
    simp [wrapU, pOpen]
  | cons c t =>
    have ha' : endsNonU (c :: t) = true := by simpa [lastOk] using ha
    rw [wrapUAux_append (c :: t) 0 _ ha', hmid 0]
    simp [wrapU, pOpen]

theorem close_not_pre (m : List Char) (hne : m ≠ [])
    (hs : hasSub pClose m = false) :
    (m ++ pClose).take 4 ≠ pClose := by
  match m with
  | [] => exact absurd rfl hne
  | [c] => intro h; simp [pClose] at h
  | [c, d] => intro h; simp [pClose] at h
  | [c, d, e] => intro h; simp [pClose] at h
  | c :: d :: e :: f :: rest =>
    intro h
    have h4 : (c :: d :: e :: f :: rest).take 4 = pClose := by
      simp [pClose] at h ⊢
      exact h
    have htrue : hasSub pClose (c :: d :: e :: f :: rest) = true := by
      unfold hasSub
      rw [if_pos]
      rw [show pClose.length = 4 by simp [pClose]]
      exact h4
    rw [htrue] at hs
    exact absurd hs (by simp)

theorem hasSub_tail (pat : List Char) (c : Char) (t : List Char)
    (hs : hasSub pat (c :: t) = false) : hasSub pat t = false := by
  unfold hasSub at hs
  split at hs
  · exact absurd hs (by simp)
  · exact hs

/-- The lazy close search succeeds exactly at the appended `</p>` when
the content holds no line terminator and no earlier `</p>`. -/
theorem findClose_exact (m : List Char)
    (hnl : ∀ c ∈ m, isLineTerm c = false)
    (hs : hasSub pClose m = false) :
    findClose (m ++ pClose) = some (m, []) := by
  induction m with
  | nil => simp [pClose, findClose, isLineTerm]
  | cons c t ih =>
    have h4 : ((c :: t) ++ pClose).take 4 ≠ pClose := close_not_pre _ (by simp) hs
    have hlt : isLineTerm c = false := hnl c (by simp)
    have ihr : findClose (t ++ pClose) = some (t, []) :=
      ih (fun x hx => hnl x (by simp [hx])) (hasSub_tail _ _ _ hs)
    show findClose (c :: (t ++ pClose)) = some (c :: t, [])
    unfold findClose
    rw [if_neg (by simpa using h4), if_neg (by simp [hlt]), ihr]

/-- One step of the paragraph scanner at a successful match. -/
theorem processParas_open (rest inner r2 : List Char)
    (h : findClose rest = some (inner, r2)) :
    processParas (pOpen ++ rest)
      = pOpen ++ wrapU (pOpen ++ inner ++ pClose) ++ pClose ++ processParas r2 := by
  show processParas ('<' :: 'p' :: '>' :: rest) = _
  rw [processParas]
  rw [if_pos (by simp [pOpen])]
  simp only [List.drop_succ_cons, List.drop_zero]
  split
  · rename_i inner' rest' heq
    rw [h] at heq
    injection heq with heq'
    injection heq' with e1 e2
    rw [e1, e2]
  · rename_i heq
    rw [h] at heq
    exact absurd heq (by simp)

theorem runSteps_no_put (l : List LoadStep) :
    ∀ s : ViewerState, (∀ st ∈ l, isPut st = false) →
      (runSteps s l).content = s.content ∧ (runSteps s l).fileData = s.fileData := by
  induction l with
  | nil => intro s _; exact ⟨rfl, rfl⟩
  | cons a t ih =>
    intro s h
    have ha := h a (by simp)
    have step : runSteps s (a :: t) = runSteps (applyStep s a) t := rfl
    have ih' := ih (applyStep s a) (fun st hst => h st (by simp [hst]))
    rw [step]
    cases a with
    | begin0 => simpa [applyStep] using ih'
    | putDocx fd hh => simp [isPut] at ha
    | finish => simpa [applyStep] using ih'

/-! ## Concrete fixtures used by witnesses and counterexamples -/

def exSheets : List (String × String) :=
  [("Sheet1", "<table>1</table>"), ("Sheet2", "<table>2</table>")]

def exState : ViewerState :=
  { fileData := some ⟨"xlsx", "book.xlsx", some exSheets⟩, content := "",
    excelSheets := exSheets, selectedSheetIndex := 0, loading := false,
    error := none }

/-! ## Claims -/

/-- C1 (amended): when the extracted plain text contains an underscore,
a paragraph matched by the scanner — literal `<p>`, content free of line
terminators and of the literal substring `</p>` — has its maximal
underscore run of length `n` replaced by a marker span containing
exactly `n` underscores when `3 ≤ n`, and left as bare underscores when
`n < 3`; the pass also duplicates the paragraph tags (see C2). The run
is delimited by the tags or non-underscore characters on both sides. -/
theorem C1_underscore_run_wrapping (plain : String) (a b : List Char) (n : Nat)
    (hp : hasUnderscores plain = true)
    (ha : lastOk a = true) (hb : headOk b = true)
    (hla : ∀ c ∈ a, isLineTerm c = false)
    (hlb : ∀ c ∈ b, isLineTerm c = false)
    (hcl : hasSub pClose (a ++ List.replicate n '_' ++ b) = false) :
    docxProcessedHtml plain ⟨pOpen ++ (a ++ List.replicate n '_' ++ b) ++ pClose⟩
      = ⟨pOpen ++ pOpen ++ wrapU a
          ++ (if 3 ≤ n then spanOpen ++ List.replicate n '_' ++ spanClose
              else List.replicate n '_')
          ++ wrapU b ++ pClose ++ pClose⟩ := by
  have hnl : ∀ c ∈ a ++ List.replicate n '_' ++ b, isLineTerm c = false := by
    intro c hc
    simp only [List.mem_append, List.mem_replicate] at hc
    rcases hc with (hc | hc) | hc
    · exact hla c hc
    · rw [hc.2]; decide
    · exact hlb c hc
  have hfc : findClose ((a ++ List.replicate n '_' ++ b) ++ pClose)
      = some (a ++ List.replicate n '_' ++ b, []) :=
    findClose_exact _ hnl hcl
  unfold docxProcessedHtml
  rw [if_pos hp]
  congr 1
  show processParas (pOpen ++ (a ++ List.replicate n '_' ++ b) ++ pClose) = _
  rw [show pOpen ++ (a ++ List.replicate n '_' ++ b) ++ pClose
      = pOpen ++ ((a ++ List.replicate n '_' ++ b) ++ pClose) by simp]
  rw [processParas_open _ _ _ hfc]
  rw [show processParas [] = [] by rw [processParas]]
  rw [wrapU_full a b n ha hb]
  simp [wrapRun]

/-- C1 witness: a run of exactly 5 underscores between `x` and `y` is
wrapped in the marker span with exactly 5 underscores inside. -/
theorem C1_underscore_run_wrapping_witness :
    docxProcessedHtml "_" ⟨pOpen ++ (['x'] ++ List.replicate 5 '_' ++ ['y']) ++ pClose⟩
      = ⟨pOpen ++ pOpen ++ wrapU ['x']
          ++ (if 3 ≤ 5 then spanOpen ++ List.replicate 5 '_' ++ spanClose
              else List.replicate 5 '_')
          ++ wrapU ['y'] ++ pClose ++ pClose⟩ :=
  C1_underscore_run_wrapping "_" ['x'] ['y'] 5 (by decide) (by decide) (by decide)
    (by decide) (by decide) (by decide)

/-- C1 counterexample: a run of 5 underscores inside a `<p>...</p>`
element whose content contains a newline is left completely unwrapped
(the regex `.` does not cross line terminators), so the output equals
the input and contains no marker span — contradicting the claim that
every run of length at least 3 inside a paragraph element is wrapped. -/
theorem C1_newline_run_unwrapped :
    docxProcessedHtml "_" "<p>\n_____</p>" = "<p>\n_____</p>" ∧
    hasSub spanOpen (docxProcessedHtml "_" "<p>\n_____</p>").data = false := by
  have h : docxProcessedHtml "_" "<p>\n_____</p>" = "<p>\n_____</p>" := by
    simp [docxProcessedHtml, hasUnderscores]
    simp [processParas, findClose, pOpen, pClose, wrapU, wrapUAux, wrapRun,
      isLineTerm, spanOpen, spanClose]
  refine ⟨h, ?_⟩
  rw [h]
  decide

/-- C2 (code bug): the replacement callback receives the full match
(tags included) but the code re-wraps its result in a fresh `<p>...</p>`
pair, so a paragraph — even one containing no underscores at all — comes
out with its paragraph tags duplicated; stripping marker spans cannot
recover the input. The unused capture group `(.*?)` and the parameter
name `content` show the intent was to receive the inner content only. -/
theorem C2_paragraph_tags_duplicated :
    docxProcessedHtml "_" "<p>abc</p>" = "<p><p>abc</p></p>" ∧
    docxProcessedHtml "_" "<p>abc</p>" ≠ "<p>abc</p>" := by
  have h : docxProcessedHtml "_" "<p>abc</p>" = "<p><p>abc</p></p>" := by
    simp [docxProcessedHtml, hasUnderscores]
    simp [processParas, findClose, pOpen, pClose, wrapU, wrapUAux, wrapRun,
      isLineTerm, spanOpen, spanClose]
  refine ⟨h, ?_⟩
  rw [h]
  decide

/-- C3: when the extracted plain text contains no underscore, the
normalizer returns the converter's HTML fragment unmodified. -/
theorem C3_no_underscore_passthrough (plain html : String)
    (h : hasUnderscores plain = false) :
    docxProcessedHtml plain html = html := by
  simp [docxProcessedHtml, h]

/-- C3 witness: underscore-free plain text bypasses the pass even when
the HTML itself contains a long underscore run. -/
theorem C3_no_underscore_passthrough_witness :
    hasUnderscores "plain text, no blanks" = false ∧
    docxProcessedHtml "plain text, no blanks" "<p>_____</p>" = "<p>_____</p>" :=
  ⟨by decide, C3_no_underscore_passthrough _ _ (by decide)⟩

/-- C4 (amended): the spreadsheet normalizer yields one entry per
`SheetNames` position, in order, names verbatim; but each entry's
content is obtained by name lookup in the workbook's `Sheets` map
(`workbook.Sheets[sheetName]`), so entries with equal names always carry
equal content — resolution is by name, not by position. -/
theorem C4_sheet_order_names_and_name_lookup {Ws : Type}
    (sheetToHtml : Ws → String) (wb : Workbook Ws) :
    (renderExcelSheets sheetToHtml wb).map Prod.fst = wb.SheetNames ∧
    (renderExcelSheets sheetToHtml wb).length = wb.SheetNames.length ∧
    ∀ (i j : Nat) (name c1 c2 : String),
      (renderExcelSheets sheetToHtml wb)[i]? = some (name, c1) →
      (renderExcelSheets sheetToHtml wb)[j]? = some (name, c2) → c1 = c2 := by
  refine ⟨?_, ?_, ?_⟩
  · simp [renderExcelSheets, Function.comp_def]
  · simp [renderExcelSheets]
  · intro i j name c1 c2 h1 h2
    simp [renderExcelSheets, List.getElem?_map] at h1 h2
    obtain ⟨n1, hn1, he1, hc1⟩ := h1
    obtain ⟨n2, hn2, he2, hc2⟩ := h2
    rw [← hc1, ← hc2, he1, he2]

/-- C4 witness: names `["Sheet1", "Sheet2"]` come out verbatim in order
with matching count, and equal names force equal content. -/
theorem C4_sheet_order_names_and_name_lookup_witness :
    (renderExcelSheets (fun w => w)
      ⟨["Sheet1", "Sheet2"], fun n => n ++ "!"⟩).map Prod.fst = ["Sheet1", "Sheet2"] ∧
    (renderExcelSheets (fun w => w)
      ⟨["Sheet1", "Sheet2"], fun n => n ++ "!"⟩).length = 2 ∧
    ("Sheet1!" : String) = "Sheet1!" :=
  ⟨(C4_sheet_order_names_and_name_lookup (fun w => w)
      ⟨["Sheet1", "Sheet2"], fun n => n ++ "!"⟩).1,
   (C4_sheet_order_names_and_name_lookup (fun w => w)
      ⟨["Sheet1", "Sheet2"], fun n => n ++ "!"⟩).2.1,
   (C4_sheet_order_names_and_name_lookup (fun w => w)
      ⟨["Sheet1", "Sheet2"], fun n => n ++ "!"⟩).2.2 0 0 "Sheet1" _ _
     (by decide) (by decide)⟩

/-- C4 counterexample: in a workbook carrying the duplicate name
`"Data"` twice, the two produced entries do not retain distinct
per-position content — both are resolved through the same name lookup
and are identical. -/
theorem C4_duplicate_names_identical_content :
    ¬ ((renderExcelSheets (fun w => w)
        ⟨["Data", "Data"], fun _ => "<table>only</table>"⟩).map Prod.snd).Pairwise (· ≠ ·) := by
  decide

/-- C5: the upload dispatcher selects the pipeline from the lowercased
extension: `docx` to the Word pipeline, `xlsx`/`xls` to the spreadsheet
pipeline, `pdf` to the PDF pass-through; `doc`/`ppt`/`pptx` produce the
legacy conversion-guidance message; anything else produces the generic
unsupported-type message naming the accepted formats. -/
theorem C5_dispatch_by_extension {Ws : Type} (cd : Except String String)
    (rwb : Except String (Workbook Ws)) (th0 : Ws → String)
    (name : String) (s : AppState) :
    (fileExtension name = "docx" →
      (handleFileUpload cd rwb th0 name s).fileType = "word") ∧
    ((fileExtension name = "xlsx" ∨ fileExtension name = "xls") →
      (handleFileUpload cd rwb th0 name s).fileType = "excel") ∧
    (fileExtension name = "pdf" →
      (handleFileUpload cd rwb th0 name s).fileType = "pdf" ∧
      (handleFileUpload cd rwb th0 name s).error = "") ∧
    ((fileExtension name = "doc" ∨ fileExtension name = "ppt" ∨ fileExtension name = "pptx") →
      (handleFileUpload cd rwb th0 name s).error = legacyMsg (fileExtension name)) ∧
    (fileExtension name ∉ ["docx", "xlsx", "xls", "pdf", "doc", "ppt", "pptx"] →
      (handleFileUpload cd rwb th0 name s).error = unsupportedMsg) := by
  refine ⟨?_, ?_, ?_, ?_, ?_⟩
  · intro h
    cases cd <;> simp [handleFileUpload, h]
  · intro h
    rcases h with h | h <;> cases rwb <;> simp [handleFileUpload, h]
  · intro h
    simp [handleFileUpload, h]
  · intro h
    rcases h with h | h | h <;> simp [handleFileUpload, h]
  · intro h
    simp only [List.mem_cons, List.not_mem_nil, or_false, not_or] at h
    obtain ⟨h1, h2, h3, h4, h5, h6, h7⟩ := h
    simp [handleFileUpload, h1, h2, h3, h4, h5, h6, h7]

/-- C5 witness: one concrete filename per branch, including a mixed-case
extension. -/
theorem C5_dispatch_by_extension_witness :
    (@handleFileUpload Unit (.ok "H") (.error "e") (fun _ => "")
      "Form.DOCX" appInit).fileType = "word" ∧
    (@handleFileUpload Unit (.ok "H") (.error "e") (fun _ => "")
      "data.XLS" appInit).fileType = "excel" ∧
    (@handleFileUpload Unit (.ok "H") (.error "e") (fun _ => "")
      "scan.pdf" appInit).fileType = "pdf" ∧
    (@handleFileUpload Unit (.ok "H") (.error "e") (fun _ => "")
      "slides.ppt" appInit).error = legacyMsg (fileExtension "slides.ppt") ∧
    (@handleFileUpload Unit (.ok "H") (.error "e") (fun _ => "")
      "notes.txt" appInit).error = unsupportedMsg :=
  ⟨(@C5_dispatch_by_extension Unit (.ok "H") (.error "e") (fun _ => "")
      "Form.DOCX" appInit).1 (by decide),
   (@C5_dispatch_by_extension Unit (.ok "H") (.error "e") (fun _ => "")
      "data.XLS" appInit).2.1 (Or.inr (by decide)),
   ((@C5_dispatch_by_extension Unit (.ok "H") (.error "e") (fun _ => "")
      "scan.pdf" appInit).2.2.1 (by decide)).1,
   (@C5_dispatch_by_extension Unit (.ok "H") (.error "e") (fun _ => "")
      "slides.ppt" appInit).2.2.2.1 (Or.inr (Or.inl (by decide))),
   (@C5_dispatch_by_extension Unit (.ok "H") (.error "e") (fun _ => "")
      "notes.txt" appInit).2.2.2.2 (by decide)⟩

/-- C6 (amended): out-of-bounds sheet selection cannot be triggered from
the rendered interface — a sheet tab exists only for indices of existing
sheets (and only when more than one sheet is loaded), and clicking tab
`i` sets the selected index to exactly `i` while leaving every other
state field unchanged. The underlying setter itself has no bounds
check. -/
theorem C6_tab_selection_in_bounds (s : ViewerState) (i : Nat)
    (h : i ∈ sheetTabIndices s) :
    i < s.excelSheets.length ∧
    (setSelectedSheetIndexOp s i).selectedSheetIndex = i ∧
    (setSelectedSheetIndexOp s i).fileData = s.fileData ∧
    (setSelectedSheetIndexOp s i).content = s.content ∧
    (setSelectedSheetIndexOp s i).excelSheets = s.excelSheets ∧
    (setSelectedSheetIndexOp s i).loading = s.loading ∧
    (setSelectedSheetIndexOp s i).error = s.error := by
  refine ⟨?_, by simp [setSelectedSheetIndexOp], by simp [setSelectedSheetIndexOp],
    by simp [setSelectedSheetIndexOp], by simp [setSelectedSheetIndexOp],
    by simp [setSelectedSheetIndexOp], by simp [setSelectedSheetIndexOp]⟩
  unfold sheetTabIndices at h
  split at h
  · simpa using h
  · simp at h

/-- C6 witness: clicking the second tab of a two-sheet workbook. -/
theorem C6_tab_selection_in_bounds_witness :
    1 < exState.excelSheets.length ∧
    (setSelectedSheetIndexOp exState 1).selectedSheetIndex = 1 ∧
    (setSelectedSheetIndexOp exState 1).fileData = exState.fileData ∧
    (setSelectedSheetIndexOp exState 1).content = exState.content ∧
    (setSelectedSheetIndexOp exState 1).excelSheets = exState.excelSheets ∧
    (setSelectedSheetIndexOp exState 1).loading = exState.loading ∧
    (setSelectedSheetIndexOp exState 1).error = exState.error :=
  C6_tab_selection_in_bounds exState 1 (by decide)

/-- C6 counterexample: with two sheets loaded, invoking the selection
setter with index 5 changes the selected index — it is not a no-op as
the claim requires (the source has no bounds-checked `selectSheet`; the
raw setter updates unconditionally). -/
theorem C6_raw_setter_not_noop :
    (setSelectedSheetIndexOp exState 5).selectedSheetIndex
      ≠ exState.selectedSheetIndex := by
  decide

/-- C7 (amended): loads carry no sequence token and completion blocks
apply unconditionally, so across any interleaving the state reflects
whichever load's completion block runs last: after a completion block
for `(fd, html)`, any following steps that are not themselves completion
blocks leave `content = html` and `fileData = some fd` — even when the
completion belongs to a stale, earlier-started load. -/
theorem C7_last_completion_wins (s : ViewerState) (pre post : List LoadStep)
    (fd : FileData) (html : String)
    (hpost : ∀ st ∈ post, isPut st = false) :
    (runSteps s (pre ++ LoadStep.putDocx fd html :: post)).content = html ∧
    (runSteps s (pre ++ LoadStep.putDocx fd html :: post)).fileData = some fd := by
  have h1 : runSteps s (pre ++ LoadStep.putDocx fd html :: post)
      = runSteps (applyStep (runSteps s pre) (.putDocx fd html)) post := by
    simp [runSteps, List.foldl_append]
  rw [h1]
  have := runSteps_no_put post (applyStep (runSteps s pre) (.putDocx fd html)) hpost
  simpa [applyStep] using this

/-- C7 witness: a single docx load, decomposed into its blocks. -/
theorem C7_last_completion_wins_witness :
    (runSteps initState ([LoadStep.begin0] ++
        LoadStep.putDocx ⟨"docx", "w.docx", none⟩ "<p>W</p>" :: [LoadStep.finish])).content
      = "<p>W</p>" ∧
    (runSteps initState ([LoadStep.begin0] ++
        LoadStep.putDocx ⟨"docx", "w.docx", none⟩ "<p>W</p>" :: [LoadStep.finish])).fileData
      = some ⟨"docx", "w.docx", none⟩ :=
  C7_last_completion_wins initState [LoadStep.begin0] [LoadStep.finish]
    ⟨"docx", "w.docx", none⟩ "<p>W</p>" (by decide)

/-- C7 counterexample: load T1 begins, load T2 begins before T1 settles
and runs to completion, then T1's completion and finish arrive; the final
state carries T1's content and file data — T2's state is overwritten by
the stale result, contradicting the claimed token-matching suppression
(the code has no sequence token at all). -/
theorem C7_stale_result_overwrites :
    (runSteps initState (mergeBy [true, false, false, false, true, true]
        (docxLoadSteps "first.docx" "x" "<p>FIRST</p>")
        (docxLoadSteps "second.docx" "x" "<p>SECOND</p>"))).content
      = docxProcessedHtml "x" "<p>FIRST</p>" ∧
    (runSteps initState (mergeBy [true, false, false, false, true, true]
        (docxLoadSteps "first.docx" "x" "<p>FIRST</p>")
        (docxLoadSteps "second.docx" "x" "<p>SECOND</p>"))).fileData
      = some ⟨"docx", "first.docx", none⟩ ∧
    docxProcessedHtml "x" "<p>FIRST</p>" ≠ docxProcessedHtml "x" "<p>SECOND</p>" := by
  decide

/-- C8 (code bug): the PDF object URL is never revoked. Uploading a PDF
and then clearing the view leaves one creation and zero revocations in
the ledger, and a superseding PDF load likewise revokes nothing — the
source contains no `URL.revokeObjectURL` call, contradicting the
required revoke-exactly-once discipline. -/
theorem C8_url_never_revoked :
    (handleClearFile (@handleFileUpload Unit (.ok "") (.error "no workbook")
        (fun _ => "") "scan.pdf" appInit)).urlsCreated = 1 ∧
    (handleClearFile (@handleFileUpload Unit (.ok "") (.error "no workbook")
        (fun _ => "") "scan.pdf" appInit)).urlsRevoked = 0 ∧
    (@handleFileUpload Unit (.ok "") (.error "no workbook") (fun _ => "") "b.pdf"
        (@handleFileUpload Unit (.ok "") (.error "no workbook")
          (fun _ => "") "a.pdf" appInit)).urlsCreated = 2 ∧
    (@handleFileUpload Unit (.ok "") (.error "no workbook") (fun _ => "") "b.pdf"
        (@handleFileUpload Unit (.ok "") (.error "no workbook")
          (fun _ => "") "a.pdf" appInit)).urlsRevoked = 0 := by
  decide

/-- C9: a window message whose type is not `FILE_DATA` leaves the
embedded viewer's state completely unchanged. -/
theorem C9_non_file_data_noop {Ws : Type}
    (decodeB64 : String → Except String (List Nat))
    (convertDocx : List Nat → Except String (String × String))
    (readWb : List Nat → Except String (Workbook Ws)) (sheetToHtml : Ws → String)
    (msg : FlutterMessage) (s : ViewerState) (h : msg.type ≠ "FILE_DATA") :
    handleMessage decodeB64 convertDocx readWb sheetToHtml msg s = s := by
  simp [handleMessage, h]

/-- C9 witness: a `VIEWER_READY` echo is ignored. -/
theorem C9_non_file_data_noop_witness :
    @handleMessage Unit (fun _ => .error "bad") (fun _ => .error "bad")
      (fun _ => .error "bad") (fun _ => "")
      ⟨"VIEWER_READY", "docx", "f.docx", "QUJD"⟩ exState = exState :=
  C9_non_file_data_noop _ _ _ _ _ _ (by decide)

/-- C10: a `FILE_DATA` message whose payload decodes but whose fileType
is neither `docx` nor `xlsx` is consumed without effect beyond ending
with `loading = false` and `error = none`: no content, file data, sheets
or index change. -/
theorem C10_unknown_file_type_consumed {Ws : Type}
    (decodeB64 : String → Except String (List Nat))
    (convertDocx : List Nat → Except String (String × String))
    (readWb : List Nat → Except String (Workbook Ws)) (sheetToHtml : Ws → String)
    (msg : FlutterMessage) (s : ViewerState) (bytes : List Nat)
    (hT : msg.type = "FILE_DATA")
    (hd : decodeB64 msg.fileData = .ok bytes)
    (h1 : msg.fileType ≠ "docx") (h2 : msg.fileType ≠ "xlsx") :
    handleMessage decodeB64 convertDocx readWb sheetToHtml msg s
      = { s with loading := false, error := none } := by
  simp [handleMessage, hT, hd, h1, h2]

/-- C10 witness: a pptx-typed message with a decodable payload. -/
theorem C10_unknown_file_type_consumed_witness :
    @handleMessage Unit (fun _ => .ok [1, 2, 3]) (fun _ => .error "bad")
      (fun _ => .error "bad") (fun _ => "")
      ⟨"FILE_DATA", "pptx", "deck.pptx", "QUJD"⟩ exState
      = { exState with loading := false, error := none } :=
  C10_unknown_file_type_consumed _ _ _ _ _ _ [1, 2, 3] (by decide) rfl
    (by decide) (by decide)
